import Mathlib

/-!
Shallow embedding of the CabanaPD force/contact-model excerpt
(src/CabanaPD_Types.hpp, src/force/CabanaPD_ContactModels.hpp,
unit_test/tstForce.hpp) and verification of its specification claims.

Machine doubles are modelled by exact real (or rational) arithmetic.
Components of the force kernel that are not part of this excerpt
(CabanaPD_Force.hpp) are modelled from the specification; each such
definition carries a doc comment starting with "Modelled from the spec:".
-/

namespace CabanaPD

/-! ## Model tags (CabanaPD_Types.hpp) -/

/-- Force-model tags of the excerpt: PMB, LinearPMB, LPS, LinearLPS
(CabanaPD_Types.hpp) and the contact model NormalRepulsionModel
(CabanaPD_ContactModels.hpp). This is the closed set of model types in the
repository excerpt. -/
inductive ModelTag where
  | PMB
  | LinearPMB
  | LPS
  | LinearLPS
  | NormalRepulsion
  deriving DecidableEq

/-- Embedding of the trait template `is_contact`: the primary template derives
from `std::false_type` (CabanaPD_Types.hpp) and the single specialization for
`NormalRepulsionModel` derives from `std::true_type`
(CabanaPD_ContactModels.hpp). -/
def is_contact : ModelTag → Bool
  | ModelTag.NormalRepulsion => true
  | _ => false

/-- Fracture tags: `NoFracture` is the tag used by
`NormalRepulsionModel::fracture_type`; fracture-capable models use the
fracture tag. -/
inductive FractureType where
  | NoFracture
  | Fracture
  deriving DecidableEq

/-! ## Contact model (CabanaPD_ContactModels.hpp) -/

/-- Base `ContactModel`: PD horizon `delta` and contact radius `Rc`. -/
structure ContactModel where
  delta : ℝ
  Rc : ℝ

/-- `NormalRepulsionModel`: derives from `ContactModel`, adding the bond
stiffness constant `c` and the bulk modulus `K`. -/
structure NormalRepulsionModel extends ContactModel where
  c : ℝ
  K : ℝ

/-- The member type alias `using fracture_type = NoFracture;` of
`NormalRepulsionModel`. -/
def NormalRepulsionModel.fracture_type : FractureType := FractureType.NoFracture

noncomputable section

/-- The `NormalRepulsionModel` constructor: stores `delta`, `Rc`, `K` and
precomputes `c = 18 K / (pi * delta^4)`; it performs no parameter checking. -/
def NormalRepulsionModel.make (delta Rc K : ℝ) : NormalRepulsionModel :=
  { delta := delta
    Rc := Rc
    K := K
    c := 18 * K / (Real.pi * delta * delta * delta * delta) }

/-- `NormalRepulsionModel::forceCoeff`: contact stretch `sc = (r - Rc)/delta`,
returning `15 * c * sc * vol`. -/
def NormalRepulsionModel.forceCoeff (model : NormalRepulsionModel)
    (r vol : ℝ) : ℝ :=
  15 * model.c * ((r - model.Rc) / model.delta) * vol

/-- Modelled from the spec: the contact force kernel (CabanaPD_Force.hpp, not
part of this excerpt) applies the normal repulsion only when the current bond
length is below the contact radius; at or beyond `Rc` the bond contributes
nothing. -/
def NormalRepulsionModel.contactContribution (model : NormalRepulsionModel)
    (r vol : ℝ) : ℝ :=
  if r < model.Rc then model.forceCoeff r vol else 0

/-- Modelled from the spec: a validating constructor per the error-handling
design (spec section 7): configuration errors (non-positive horizon,
non-positive elastic constant, contact radius at or beyond the horizon) make
construction fail. Used to compare the spec's words against the actual
(non-validating) constructor `NormalRepulsionModel.make`. -/
def NormalRepulsionModel.makeChecked (delta Rc K : ℝ) :
    Option NormalRepulsionModel :=
  if 0 < delta ∧ 0 < K ∧ Rc < delta then
    some (NormalRepulsionModel.make delta Rc K)
  else
    none

end

/-! ## Bond-state tracking (spec section 4.2; tracker not in this excerpt) -/

/-- Modelled from the spec: per-bond fracture state, `Intact` or `Broken`
(spec section 4.2; the tracker lives in CabanaPD_Force.hpp, not in this
excerpt). -/
inductive BondState where
  | Intact
  | Broken
  deriving DecidableEq

/-- Modelled from the spec: one evaluation cycle's transition for a single
bond (spec sections 4.2 and 7): an intact bond breaks when its stretch
reaches or exceeds the critical stretch (equality counts as exceeding), and
`Broken` is terminal. -/
def stepBond (criticalStretch stretch : ℚ) : BondState → BondState
  | BondState.Broken => BondState.Broken
  | BondState.Intact =>
      if criticalStretch ≤ stretch then BondState.Broken else BondState.Intact

/-- Modelled from the spec: the bond state after a sequence of evaluation
cycles, one stretch value per cycle. -/
def evalCycles (criticalStretch : ℚ) (stretches : List ℚ) (s : BondState) :
    BondState :=
  stretches.foldl (fun st stretch => stepBond criticalStretch stretch st) s

/-- Modelled from the spec: a bond's contribution to any accumulated quantity
(force, energy, weighted volume, dilatation): a broken bond is excluded,
contributing zero (spec sections 4.2 and 4.3). -/
def bondContribution (s : BondState) (value : ℚ) : ℚ :=
  match s with
  | BondState.Broken => 0
  | BondState.Intact => value

/-! ## Energy reduction (spec section 4.4; tstForce.hpp checkResults) -/

/-- Per-particle snapshot entries used by the energy reduction: strain-energy
density `W` and volume `vol` (the host slices in tstForce.hpp). -/
structure ParticleEnergy where
  W : ℚ
  vol : ℚ

/-- Modelled from the spec: the energy reducer, one global scalar
`Phi = sum over local particles of W(p) * vol(p)` (spec section 4.4; the
reduction code lives in CabanaPD_Force.hpp, not in this excerpt). -/
def computeEnergy (particles : List ParticleEnergy) : ℚ :=
  (particles.map (fun p => p.W * p.vol)).sum

/-- The reference sum of tstForce.hpp `checkResults`:
`ref_Phi += W_host(p) * vol_host(p)` over all particles, starting at zero. -/
def refPhi (particles : List ParticleEnergy) : ℚ :=
  particles.foldl (fun acc p => acc + p.W * p.vol) 0

/-! ## Dilatation under uniform stretch (tstForce.hpp LPS reference loops) -/

/-- The weighted-volume accumulation of the LPS reference computation in
tstForce.hpp: over every bond `(xi, vol)`,
`weighted_volume += 1.0 / xi * xi * xi * vol`. A bond is a pair of its
reference length and neighbor volume. -/
def weighted_volume (bonds : List (ℚ × ℚ)) : ℚ :=
  bonds.foldl (fun acc b => acc + 1 / b.1 * b.1 * b.1 * b.2) 0

/-- The dilatation accumulation of the LPS reference computation in
tstForce.hpp under the uniform stretch field `s0`: over every bond,
`theta += 3.0 / weighted_volume * 1.0 / xi * s0 * xi * xi * vol`. -/
def thetaUniform (s0 : ℚ) (bonds : List (ℚ × ℚ)) : ℚ :=
  bonds.foldl
    (fun acc b =>
      acc + 3 / weighted_volume bonds * 1 / b.1 * s0 * b.1 * b.1 * b.2) 0

/-- Modelled from the spec: a bond-based (PMB) model skips the dilatation
pass entirely, leaving the dilatation field at its initialized value of zero
(spec sections 4.3 and 8; checked by `checkTheta` in tstForce.hpp). -/
def pmbTheta : ℚ := 0

/-! ## Lateral force symmetry (spec section 8; force kernel not in excerpt) -/

/-- Componentwise negation of a bond offset vector. -/
def neg3 (v : ℝ × ℝ × ℝ) : ℝ × ℝ × ℝ := (-v.1, -v.2.1, -v.2.2)

noncomputable section

/-- Euclidean length of a bond vector, as computed in tstForce.hpp:
`sqrt(x*x + y*y + z*z)`. -/
def norm3 (v : ℝ × ℝ × ℝ) : ℝ :=
  Real.sqrt (v.1 * v.1 + v.2.1 * v.2.1 + v.2.2 * v.2.2)

/-- Modelled from the spec: the y component of one bond's force contribution
under the uniform dilation field `u = s0 * x` (spec sections 4.3 and 8): the
current bond vector is `r = (1 + s0) * xi`, the coefficient is
`c * stretch * vol` with `stretch = (|r| - |xi|)/|xi|`, applied along the
unit current bond vector, mirroring `c * s0 * vol * r_d / r` of
tstForce.hpp. -/
def bondForceY (c s0 vol : ℝ) (xi : ℝ × ℝ × ℝ) : ℝ :=
  c * ((norm3 ((1 + s0) * xi.1, (1 + s0) * xi.2.1, (1 + s0) * xi.2.2) -
      norm3 xi) / norm3 xi) * vol * ((1 + s0) * xi.2.1) /
    norm3 ((1 + s0) * xi.1, (1 + s0) * xi.2.1, (1 + s0) * xi.2.2)

/-- Modelled from the spec: the z component of one bond's force contribution
under the uniform dilation field, as `bondForceY`. -/
def bondForceZ (c s0 vol : ℝ) (xi : ℝ × ℝ × ℝ) : ℝ :=
  c * ((norm3 ((1 + s0) * xi.1, (1 + s0) * xi.2.1, (1 + s0) * xi.2.2) -
      norm3 xi) / norm3 xi) * vol * ((1 + s0) * xi.2.2) /
    norm3 ((1 + s0) * xi.1, (1 + s0) * xi.2.1, (1 + s0) * xi.2.2)

/-- Modelled from the spec: the accumulated y force at a particle, the sum of
bond contributions over its neighborhood. -/
def forceY (c s0 vol : ℝ) (bonds : List (ℝ × ℝ × ℝ)) : ℝ :=
  (bonds.map (bondForceY c s0 vol)).sum

/-- Modelled from the spec: the accumulated z force at a particle. -/
def forceZ (c s0 vol : ℝ) (bonds : List (ℝ × ℝ × ℝ)) : ℝ :=
  (bonds.map (bondForceZ c s0 vol)).sum

end

/-! ## Bond visitation guard (tstForce.hpp reference loops, lines 57-66) -/

/-- The list of integer offsets `-m, ..., m` of one axis of the reference
loops in tstForce.hpp. -/
def axisRange (m : ℕ) : List ℤ :=
  (List.range (2 * m + 1)).map (fun i => (i : ℤ) - (m : ℤ))

/-- The full grid of integer offsets `(i, j, k)`, each in `-m, ..., m`,
enumerated by the reference loops in tstForce.hpp. -/
def gridOffsets (m : ℕ) : List (ℤ × ℤ × ℤ) :=
  (axisRange m).flatMap fun i =>
    (axisRange m).flatMap fun j =>
      (axisRange m).map fun k => (i, j, k)

noncomputable section

/-- The reference bond length of tstForce.hpp: with `dx = delta / m`,
`xi = sqrt(xi_x^2 + xi_y^2 + xi_z^2)` where `xi_x = dx * i` and so on. -/
def xiLen (delta : ℝ) (m : ℕ) (b : ℤ × ℤ × ℤ) : ℝ :=
  let dx := delta / (m : ℝ)
  Real.sqrt ((dx * b.1) * (dx * b.1) + (dx * b.2.1) * (dx * b.2.1) +
    (dx * b.2.2) * (dx * b.2.2))

end

/-- A bond visited by the reference bond loop of tstForce.hpp: the offset is
in the enumerated grid and passes the guard
`xi > 0.0 && xi < model.delta + 1e-14`. -/
def VisitedBond (delta : ℝ) (m : ℕ) (b : ℤ × ℤ × ℤ) : Prop :=
  b ∈ gridOffsets m ∧ 0 < xiLen delta m b ∧ xiLen delta m b < delta + 1e-14

/-! ## Helper lemmas -/

/-- Accumulating a list by repeated addition starting from `init` equals
`init` plus the sum of the mapped list. -/
theorem foldl_add_map {α : Type} (f : α → ℚ) (l : List α) (init : ℚ) :
    l.foldl (fun acc b => acc + f b) init = init + (l.map f).sum := by
  induction l generalizing init with
  | nil => simp
  | cons b l ih =>
      simp only [List.foldl_cons, List.map_cons, List.sum_cons, ih]
      ring

/-! ## Claim theorems -/

/-- C2: once a bond is Broken it remains Broken after any number of
subsequent evaluation cycles, and a Broken bond contributes zero to force,
energy, weighted volume, and dilatation in every later cycle. -/
theorem broken_bond_terminal (criticalStretch value : ℚ)
    (stretches : List ℚ) :
    evalCycles criticalStretch stretches BondState.Broken =
      BondState.Broken ∧
    bondContribution BondState.Broken value = 0 := by
  refine ⟨?_, rfl⟩
  induction stretches with
  | nil => rfl
  | cons s l ih => simpa [evalCycles, stepBond] using ih

/-- C3: the scalar returned by the energy reducer equals, within 1e-5
absolute tolerance, the sum over particles of W(p) * vol(p) computed
independently from the per-particle field snapshot (here the two agree
exactly). -/
theorem energy_reducer_consistent (particles : List ParticleEnergy) :
    |computeEnergy particles - refPhi particles| ≤ 1e-5 := by
  have h : refPhi particles = computeEnergy particles := by
    simpa [refPhi, computeEnergy] using
      foldl_add_map (fun p : ParticleEnergy => p.W * p.vol) particles 0
  rw [h, sub_self, abs_zero]
  norm_num

/-- C4: construction precomputes `c = 18 K / (pi delta^4)` and
`forceCoeff(r, vol) = 15 c ((r - Rc)/delta) vol`. -/
theorem normal_repulsion_formula (delta Rc K r vol : ℝ) :
    (NormalRepulsionModel.make delta Rc K).c =
      18 * K / (Real.pi * delta ^ 4) ∧
    (NormalRepulsionModel.make delta Rc K).forceCoeff r vol =
      15 * (18 * K / (Real.pi * delta ^ 4)) * ((r - Rc) / delta) * vol := by
  constructor
  · show 18 * K / (Real.pi * delta * delta * delta * delta) = _
    ring_nf
  · show 15 * (18 * K / (Real.pi * delta * delta * delta * delta)) *
        ((r - Rc) / delta) * vol = _
    ring_nf

/-- C9: `is_contact` holds exactly for the normal-repulsion contact model,
whose fracture tag is the no-fracture tag. -/
theorem contact_trait (t : ModelTag) :
    is_contact ModelTag.NormalRepulsion = true ∧
    NormalRepulsionModel.fracture_type = FractureType.NoFracture ∧
    (is_contact t = true ↔ t = ModelTag.NormalRepulsion) := by
  refine ⟨rfl, rfl, ?_⟩
  cases t <;> simp [is_contact]

/-- C10: the force coefficient is exactly zero at separation `Rc` and is
homogeneous of degree one in the volume argument. -/
theorem forceCoeff_zero_at_Rc_linear_in_vol (delta Rc K r vol a : ℝ) :
    (NormalRepulsionModel.make delta Rc K).forceCoeff Rc vol = 0 ∧
    (NormalRepulsionModel.make delta Rc K).forceCoeff r (a * vol) =
      a * (NormalRepulsionModel.make delta Rc K).forceCoeff r vol := by
  constructor <;>
    simp only [NormalRepulsionModel.make, NormalRepulsionModel.forceCoeff] <;>
    ring

/-- C5 counterexample: with horizon -1 (non-positive), contact radius 2 (at
or beyond the horizon) and K = 1, the actual constructor still produces a
usable model object — its fields hold the invalid parameters and its force
coefficient evaluates — whereas the spec's validating construction rejects
these parameters. -/
theorem construction_unchecked_cex :
    ¬ (0 : ℝ) < -1 ∧
    NormalRepulsionModel.makeChecked (-1) 2 1 = none ∧
    (NormalRepulsionModel.make (-1) 2 1).delta = -1 ∧
    (NormalRepulsionModel.make (-1) 2 1).Rc = 2 ∧
    (NormalRepulsionModel.make (-1) 2 1).forceCoeff 0 1 = 540 / Real.pi := by
  have hpi := Real.pi_ne_zero
  refine ⟨by norm_num, ?_, rfl, rfl, ?_⟩
  · rw [NormalRepulsionModel.makeChecked, if_neg]
    intro h
    have := h.1
    norm_num at this
  · show 15 * (18 * 1 / (Real.pi * (-1) * (-1) * (-1) * (-1))) *
        ((0 - 2) / (-1)) * 1 = 540 / Real.pi
    field_simp
    ring

/-- C5 amended: the constructor performs no parameter validation — for every
parameter set, construction succeeds and returns the model holding exactly
the given `delta`, `Rc`, `K` and the precomputed `c`. -/
theorem construction_total (delta Rc K : ℝ) :
    (NormalRepulsionModel.make delta Rc K).delta = delta ∧
    (NormalRepulsionModel.make delta Rc K).Rc = Rc ∧
    (NormalRepulsionModel.make delta Rc K).K = K ∧
    (NormalRepulsionModel.make delta Rc K).c =
      18 * K / (Real.pi * delta * delta * delta * delta) :=
  ⟨rfl, rfl, rfl, rfl⟩

/-- C1 counterexample: with horizon 1, contact radius 1/2 and K = 1, at bond
length 1/4 (below the contact radius) and volume 1 the force coefficient is
not strictly positive — it is strictly negative. -/
theorem contact_force_sign_cex :
    (1 : ℝ) / 4 < 1 / 2 ∧ (0 : ℝ) < 1 ∧
    ¬ 0 < (NormalRepulsionModel.make 1 (1 / 2) 1).forceCoeff (1 / 4) 1 := by
  refine ⟨by norm_num, by norm_num, ?_⟩
  have hpi := Real.pi_pos
  have h : (NormalRepulsionModel.make 1 (1 / 2) 1).forceCoeff (1 / 4) 1 =
      -(135 / (2 * Real.pi)) := by
    show 15 * (18 * 1 / (Real.pi * 1 * 1 * 1 * 1)) *
        ((1 / 4 - 1 / 2) / 1) * 1 = -(135 / (2 * Real.pi))
    field_simp
    ring
  rw [h]
  intro hcon
  have hq : 0 < 135 / (2 * Real.pi) := by positivity
  linarith

/-- C1 amended: for a model with positive horizon and positive K and any
positive volume, the force coefficient is strictly negative for bond lengths
below the contact radius (the repulsion, applied along the bond direction by
the kernel), its magnitude strictly increases as the length decreases below
`Rc`, it is exactly zero at `Rc`, and the kernel's contact contribution is
zero at or beyond `Rc`. -/
theorem contact_force_repulsion (delta Rc K vol : ℝ)
    (hdelta : 0 < delta) (hK : 0 < K) (hvol : 0 < vol) :
    (∀ r, r < Rc →
      (NormalRepulsionModel.make delta Rc K).forceCoeff r vol < 0) ∧
    (∀ r1 r2, r1 < r2 → r2 < Rc →
      |(NormalRepulsionModel.make delta Rc K).forceCoeff r2 vol| <
        |(NormalRepulsionModel.make delta Rc K).forceCoeff r1 vol|) ∧
    (NormalRepulsionModel.make delta Rc K).forceCoeff Rc vol = 0 ∧
    (∀ r, Rc ≤ r →
      (NormalRepulsionModel.make delta Rc K).contactContribution r vol
        = 0) := by
  have hpi := Real.pi_pos
  have hc : 0 < (NormalRepulsionModel.make delta Rc K).c := by
    show 0 < 18 * K / (Real.pi * delta * delta * delta * delta)
    positivity
  have hval : ∀ r, (NormalRepulsionModel.make delta Rc K).forceCoeff r vol =
      15 * (NormalRepulsionModel.make delta Rc K).c *
        ((r - Rc) / delta) * vol := fun r => rfl
  have hneg : ∀ r, r < Rc →
      (NormalRepulsionModel.make delta Rc K).forceCoeff r vol < 0 := by
    intro r hr
    rw [hval]
    have hsc : (r - Rc) / delta < 0 :=
      div_neg_of_neg_of_pos (by linarith) hdelta
    calc 15 * (NormalRepulsionModel.make delta Rc K).c *
          ((r - Rc) / delta) * vol
        = 15 * (NormalRepulsionModel.make delta Rc K).c * vol *
          ((r - Rc) / delta) := by ring
      _ < 0 := mul_neg_of_pos_of_neg (by positivity) hsc
  refine ⟨hneg, ?_, ?_, ?_⟩
  · intro r1 r2 h12 h2c
    have h1c : r1 < Rc := lt_trans h12 h2c
    rw [abs_of_neg (hneg r2 h2c), abs_of_neg (hneg r1 h1c), hval, hval]
    have hD : 0 < 15 * (NormalRepulsionModel.make delta Rc K).c * vol /
        delta := by positivity
    have hrw : ∀ r, -(15 * (NormalRepulsionModel.make delta Rc K).c *
        ((r - Rc) / delta) * vol) =
        15 * (NormalRepulsionModel.make delta Rc K).c * vol / delta *
          (Rc - r) := by
      intro r
      field_simp
      ring
    rw [hrw, hrw]
    have hlt : Rc - r2 < Rc - r1 := by linarith
    exact mul_lt_mul_of_pos_left hlt hD
  · rw [hval]
    ring
  · intro r hr
    have hnot : ¬ r < (NormalRepulsionModel.make delta Rc K).Rc :=
      not_lt.mpr hr
    rw [NormalRepulsionModel.contactContribution, if_neg hnot]

/-- Witness for the amended C1 at horizon 1, contact radius 1/2, K = 2,
volume 1: the hypotheses hold and the coefficient vanishes at `Rc`. -/
theorem contact_force_repulsion_witness :
    (0 : ℝ) < 1 ∧ (0 : ℝ) < 2 ∧
    (NormalRepulsionModel.make 1 (1 / 2) 2).forceCoeff (1 / 2) 1 = 0 :=
  ⟨by norm_num, by norm_num,
    (contact_force_repulsion 1 (1 / 2) 2 1 (by norm_num) (by norm_num)
      (by norm_num)).2.2.1⟩

/-- The dilatation summand factors as `3 s0 / m` times the weighted-volume
summand. -/
theorem theta_sum_factor (s0 mval : ℚ) (l : List (ℚ × ℚ)) :
    (l.map (fun b => 3 / mval * 1 / b.1 * s0 * b.1 * b.1 * b.2)).sum =
      3 * s0 / mval * (l.map (fun b => 1 / b.1 * b.1 * b.1 * b.2)).sum := by
  induction l with
  | nil => simp
  | cons b l ih =>
      simp only [List.map_cons, List.sum_cons, ih]
      ring

/-- C6: under a uniform stretch field `s0` over any neighborhood with
nonzero weighted volume, the state-based (LPS) dilatation equals exactly
`3 s0`, and the bond-based (PMB) dilatation is identically zero. -/
theorem dilatation_uniform_stretch (s0 : ℚ) (bonds : List (ℚ × ℚ))
    (h : weighted_volume bonds ≠ 0) :
    thetaUniform s0 bonds = 3 * s0 ∧ pmbTheta = 0 := by
  refine ⟨?_, rfl⟩
  have hw : weighted_volume bonds =
      (bonds.map (fun b => 1 / b.1 * b.1 * b.1 * b.2)).sum := by
    simpa [weighted_volume] using
      foldl_add_map (fun b : ℚ × ℚ => 1 / b.1 * b.1 * b.1 * b.2) bonds 0
  have ht : thetaUniform s0 bonds =
      (bonds.map (fun b =>
        3 / weighted_volume bonds * 1 / b.1 * s0 * b.1 * b.1 * b.2)).sum := by
    simpa [thetaUniform] using
      foldl_add_map
        (fun b : ℚ × ℚ =>
          3 / weighted_volume bonds * 1 / b.1 * s0 * b.1 * b.1 * b.2)
        bonds 0
  rw [ht, theta_sum_factor, ← hw, div_mul_cancel₀]
  exact h

/-- Witness for C6: one bond of reference length 1 and volume 1 gives a
nonzero weighted volume, and with `s0 = 2` the dilatation is `3 * 2`. -/
theorem dilatation_uniform_stretch_witness :
    weighted_volume [((1 : ℚ), 1)] ≠ 0 ∧
    thetaUniform 2 [((1 : ℚ), 1)] = 3 * 2 :=
  ⟨by norm_num [weighted_volume],
    (dilatation_uniform_stretch 2 [((1 : ℚ), 1)]
      (by norm_num [weighted_volume])).1⟩

/-- Negating a vector preserves its Euclidean length. -/
theorem norm3_neg3 (v : ℝ × ℝ × ℝ) : norm3 (neg3 v) = norm3 v := by
  simp only [norm3, neg3]
  congr 1
  ring

/-- Negating the bond offset negates its y force contribution. -/
theorem bondForceY_neg3 (c s0 vol : ℝ) (xi : ℝ × ℝ × ℝ) :
    bondForceY c s0 vol (neg3 xi) = -bondForceY c s0 vol xi := by
  have hr : ((1 + s0) * (neg3 xi).1, (1 + s0) * (neg3 xi).2.1,
      (1 + s0) * (neg3 xi).2.2) =
      neg3 ((1 + s0) * xi.1, (1 + s0) * xi.2.1, (1 + s0) * xi.2.2) := by
    simp [neg3]
  rw [bondForceY, hr, norm3_neg3, norm3_neg3]
  rw [bondForceY]
  simp only [neg3]
  ring

/-- Negating the bond offset negates its z force contribution. -/
theorem bondForceZ_neg3 (c s0 vol : ℝ) (xi : ℝ × ℝ × ℝ) :
    bondForceZ c s0 vol (neg3 xi) = -bondForceZ c s0 vol xi := by
  have hr : ((1 + s0) * (neg3 xi).1, (1 + s0) * (neg3 xi).2.1,
      (1 + s0) * (neg3 xi).2.2) =
      neg3 ((1 + s0) * xi.1, (1 + s0) * xi.2.1, (1 + s0) * xi.2.2) := by
    simp [neg3]
  rw [bondForceZ, hr, norm3_neg3, norm3_neg3]
  rw [bondForceZ]
  simp only [neg3]
  ring

/-- The sum of a negated map is the negated sum. -/
theorem sum_map_neg_eq {α : Type} (f : α → ℝ) (l : List α) :
    (l.map fun x => -f x).sum = -(l.map f).sum := by
  induction l with
  | nil => simp
  | cons a l ih =>
      simp only [List.map_cons, List.sum_cons, ih]
      ring

/-- C7: over any neighborhood that is symmetric under negation of the bond
offsets, the accumulated lateral (y and z) force components under the
uniform dilation field vanish exactly. -/
theorem lateral_force_symmetry (c s0 vol : ℝ) (bonds : List (ℝ × ℝ × ℝ))
    (h : (bonds.map neg3).Perm bonds) :
    forceY c s0 vol bonds = 0 ∧ forceZ c s0 vol bonds = 0 := by
  constructor
  · have h1 : ((bonds.map neg3).map (bondForceY c s0 vol)).sum =
        (bonds.map (bondForceY c s0 vol)).sum :=
      (h.map (bondForceY c s0 vol)).sum_eq
    rw [List.map_map] at h1
    have h2 : bonds.map (bondForceY c s0 vol ∘ neg3) =
        bonds.map (fun xi => -bondForceY c s0 vol xi) :=
      List.map_congr_left (fun xi _ => bondForceY_neg3 c s0 vol xi)
    rw [h2, sum_map_neg_eq] at h1
    have : forceY c s0 vol bonds = (bonds.map (bondForceY c s0 vol)).sum :=
      rfl
    rw [this]
    linarith
  · have h1 : ((bonds.map neg3).map (bondForceZ c s0 vol)).sum =
        (bonds.map (bondForceZ c s0 vol)).sum :=
      (h.map (bondForceZ c s0 vol)).sum_eq
    rw [List.map_map] at h1
    have h2 : bonds.map (bondForceZ c s0 vol ∘ neg3) =
        bonds.map (fun xi => -bondForceZ c s0 vol xi) :=
      List.map_congr_left (fun xi _ => bondForceZ_neg3 c s0 vol xi)
    rw [h2, sum_map_neg_eq] at h1
    have : forceZ c s0 vol bonds = (bonds.map (bondForceZ c s0 vol)).sum :=
      rfl
    rw [this]
    linarith

/-- Witness for C7: the two-bond neighborhood with offsets `(1, 2, 3)` and
`(-1, -2, -3)` is symmetric under negation and its lateral force sums
vanish. -/
theorem lateral_force_symmetry_witness :
    (([((1 : ℝ), (2 : ℝ), (3 : ℝ)), (-1, -2, -3)].map neg3)).Perm
      [((1 : ℝ), (2 : ℝ), (3 : ℝ)), (-1, -2, -3)] ∧
    forceY 1 (1 / 10) 1 [((1 : ℝ), (2 : ℝ), (3 : ℝ)), (-1, -2, -3)] = 0 := by
  have hm : ([((1 : ℝ), (2 : ℝ), (3 : ℝ)), (-1, -2, -3)].map neg3) =
      [((-1 : ℝ), (-2 : ℝ), (-3 : ℝ)), (1, 2, 3)] := by
    norm_num [neg3]
  have hp : (([((1 : ℝ), (2 : ℝ), (3 : ℝ)), (-1, -2, -3)].map neg3)).Perm
      [((1 : ℝ), (2 : ℝ), (3 : ℝ)), (-1, -2, -3)] := by
    rw [hm]
    exact List.Perm.swap _ _ _
  exact ⟨hp,
    (lateral_force_symmetry 1 (1 / 10) 1
      [((1 : ℝ), (2 : ℝ), (3 : ℝ)), (-1, -2, -3)] hp).1⟩

/-- C8: every bond passing the reference bond loop's guard has strictly
positive reference length and is not the self-pair, and conversely every
non-self grid offset has strictly positive reference length — so a zero
reference length is never passed onward: self-pairs are skipped at the
source. -/
theorem bond_loop_positive_xi (delta : ℝ) (m : ℕ) (b : ℤ × ℤ × ℤ)
    (hdelta : 0 < delta) (hm : 0 < m) :
    (VisitedBond delta m b → 0 < xiLen delta m b ∧ b ≠ (0, 0, 0)) ∧
    (b ≠ (0, 0, 0) → 0 < xiLen delta m b) := by
  obtain ⟨i, j, k⟩ := b
  have hdx : 0 < delta / (m : ℝ) := by
    apply div_pos hdelta
    exact_mod_cast hm
  constructor
  · rintro ⟨-, hpos, -⟩
    refine ⟨hpos, ?_⟩
    intro heq
    obtain ⟨hi, hj, hk⟩ : i = 0 ∧ j = 0 ∧ k = 0 := by
      simpa [Prod.ext_iff] using heq
    subst hi hj hk
    have hz : xiLen delta m ((0 : ℤ), (0 : ℤ), (0 : ℤ)) = 0 := by
      simp [xiLen]
    rw [hz] at hpos
    exact lt_irrefl 0 hpos
  · intro hne
    have hcoord : i ≠ 0 ∨ j ≠ 0 ∨ k ≠ 0 := by
      by_contra hcon
      push_neg at hcon
      exact hne (by simp [hcon.1, hcon.2.1, hcon.2.2])
    rw [xiLen]
    apply Real.sqrt_pos.mpr
    have hi2 : 0 ≤ delta / (m : ℝ) * (i : ℝ) * (delta / (m : ℝ) * (i : ℝ)) :=
      mul_self_nonneg _
    have hj2 : 0 ≤ delta / (m : ℝ) * (j : ℝ) * (delta / (m : ℝ) * (j : ℝ)) :=
      mul_self_nonneg _
    have hk2 : 0 ≤ delta / (m : ℝ) * (k : ℝ) * (delta / (m : ℝ) * (k : ℝ)) :=
      mul_self_nonneg _
    rcases hcoord with hi | hj | hk
    · have : (i : ℝ) ≠ 0 := Int.cast_ne_zero.mpr hi
      have hp : 0 < delta / (m : ℝ) * (i : ℝ) *
          (delta / (m : ℝ) * (i : ℝ)) :=
        mul_self_pos.mpr (mul_ne_zero (ne_of_gt hdx) this)
      linarith
    · have : (j : ℝ) ≠ 0 := Int.cast_ne_zero.mpr hj
      have hp : 0 < delta / (m : ℝ) * (j : ℝ) *
          (delta / (m : ℝ) * (j : ℝ)) :=
        mul_self_pos.mpr (mul_ne_zero (ne_of_gt hdx) this)
      linarith
    · have : (k : ℝ) ≠ 0 := Int.cast_ne_zero.mpr hk
      have hp : 0 < delta / (m : ℝ) * (k : ℝ) *
          (delta / (m : ℝ) * (k : ℝ)) :=
        mul_self_pos.mpr (mul_ne_zero (ne_of_gt hdx) this)
      linarith

/-- Witness for C8: at horizon 1 with one cell per horizon, the non-self
offset `(1, 0, 0)` has strictly positive reference length. -/
theorem bond_loop_positive_xi_witness :
    (0 : ℝ) < 1 ∧ 0 < xiLen 1 1 ((1 : ℤ), 0, 0) :=
  ⟨by norm_num,
    (bond_loop_positive_xi 1 1 ((1 : ℤ), 0, 0) (by norm_num)
      (by norm_num)).2 (by decide)⟩

end CabanaPD
